import Mathlib

/-!
# bsky_firehose_exporter: the `RepoCommit` callback

A shallow embedding of the classification loop of `main.go` (lines 82-104): the
callback registered as `RepoStreamCallbacks.RepoCommit` walks the operations of
one commit event and, for every `create`, increments the first of five
Prometheus counters whose collection substring occurs in the operation's path.

Modelling decisions.

* A Go `string` is a sequence of bytes: `GoString := List UInt8`. String
  literals of the source are written `bytes "..."` (their UTF-8 encoding).
* `strings.Contains` is the byte-wise substring test; `Contains_iff_isInfix`
  relates the executable definition to `List.IsInfix`.
* The five counters are `prometheus.Counter` values, and the callback is
  embedded at three levels of detail, each refining the one before.
  1. `loopBody`, `RepoCommit`, `handleEvents`: a counter's value is the number
     it has counted, a natural number, and `Counter.Inc()` adds one (`Inc`).
     This level carries the statements on which counter is chosen and how many
     operations are counted, where the width of the counter plays no part.
  2. `loopBody64`, `RepoCommit64`, `handleEvents64`: the counter is the 64-bit
     unsigned register behind `Counter.Inc()`, which wraps from `2 ^ 64 - 1` to
     `0` (`Inc64`). `loopBody64_wrap` shows that this register holds the count
     of level 1 modulo `2 ^ 64`. This level carries the statements on the range
     of a counter.
  3. `RepoCommitPtr`: `evt.Ops` as Go holds it, a slice `[]*SyncSubscribeRepos_RepoOp`
     whose elements may be nil pointers, and the way a call ends (`Outcome`): a
     return of an `error`, or the run-time panic of reading `op.Action` through
     a nil pointer. `RepoCommitPtr_present` shows that on an event without nil
     pointers it is `RepoCommit64` and returns nil.
  Levels 1 and 2 hold the operations pointed to, so they cover the events whose
  operation pointers are all non-nil.
* The `for ... range` loop is a left fold of its body over `evt.Ops`.
-/

namespace BskyFirehoseExporter

/-! ## Strings -/

/-- Go `string`: an immutable sequence of bytes. -/
abbrev GoString := List UInt8

/-- The bytes of a Go string literal (Go source text is UTF-8). -/
def bytes (s : String) : GoString := s.toUTF8.data.toList

/-- Go `strings.Contains(s, substr)`: does `substr` occur in `s` as a contiguous
run of bytes. The empty `substr` occurs in every `s`. -/
def Contains (s substr : GoString) : Bool :=
  match s with
  | [] => substr.isPrefixOf []
  | b :: rest => substr.isPrefixOf (b :: rest) || Contains rest substr

/-! ## Data model -/

/-- The fields of `atproto.SyncSubscribeRepos_RepoOp` the callback reads. -/
structure SyncSubscribeRepos_RepoOp where
  Action : GoString
  Path : GoString
deriving DecidableEq

/-- The fields of `atproto.SyncSubscribeRepos_Commit` the data model names:
the repository (source key), the sequence number and the operations. -/
structure SyncSubscribeRepos_Commit where
  Repo : GoString
  Seq : Int
  Ops : List SyncSubscribeRepos_RepoOp
deriving DecidableEq

/-- The values of the five counters created in `main`
(`bsky_blocks_total`, `bsky_follows_total`, `bsky_likes_total`,
`bsky_posts_total`, `bsky_reposts_total`). -/
structure Counters where
  blocks : Nat
  follows : Nat
  likes : Nat
  posts : Nat
  reposts : Nat
deriving DecidableEq

/-- The effect of `prometheus.Counter.Inc()` on the number a counter has
counted. -/
def Inc (v : Nat) : Nat := v + 1

/-! ## The callback -/

/-- The body of the loop `for _, op := range evt.Ops` (main.go lines 86-100):
the `if op.Action == "create"` guard around the expressionless `switch`, whose
cases are tried top to bottom and whose missing `default` does nothing. -/
def loopBody (c : Counters) (op : SyncSubscribeRepos_RepoOp) : Counters :=
  if op.Action = bytes "create" then
    if Contains op.Path (bytes "app.bsky.graph.block") then
      { c with blocks := Inc c.blocks }
    else if Contains op.Path (bytes "app.bsky.feed.like") then
      { c with likes := Inc c.likes }
    else if Contains op.Path (bytes "app.bsky.graph.follow") then
      { c with follows := Inc c.follows }
    else if Contains op.Path (bytes "app.bsky.feed.post") then
      { c with posts := Inc c.posts }
    else if Contains op.Path (bytes "app.bsky.feed.repost") then
      { c with reposts := Inc c.reposts }
    else c
  else c

/-- The `RepoCommit` callback (main.go lines 83-103): the counters after the
loop over `evt.Ops`, and the returned `error`, where `none` is Go `nil`. -/
def RepoCommit (c : Counters) (evt : SyncSubscribeRepos_Commit) :
    Counters × Option String :=
  (evt.Ops.foldl loopBody c, none)

/-- The counters after the callback has handled the events of a list one after
another. -/
def handleEvents (c : Counters) (evts : List SyncSubscribeRepos_Commit) : Counters :=
  evts.foldl (fun acc evt => (RepoCommit acc evt).1) c

/-! ## The specification's vocabulary -/

/-- The names of the five counters. -/
inductive CounterName where
  | blocks
  | follows
  | likes
  | posts
  | reposts
deriving DecidableEq

/-- The value of the named counter. -/
def Counters.get (c : Counters) : CounterName → Nat
  | .blocks => c.blocks
  | .follows => c.follows
  | .likes => c.likes
  | .posts => c.posts
  | .reposts => c.reposts

/-- The collection substring of the rule that feeds the named counter. -/
def ruleSubstr : CounterName → GoString
  | .blocks => bytes "app.bsky.graph.block"
  | .follows => bytes "app.bsky.graph.follow"
  | .likes => bytes "app.bsky.feed.like"
  | .posts => bytes "app.bsky.feed.post"
  | .reposts => bytes "app.bsky.feed.repost"

/-- The fixed order of the rules: block, like, follow, post, repost. -/
def ruleOrder : List CounterName :=
  [.blocks, .likes, .follows, .posts, .reposts]

/-- The specification's classifier: the counter of the first rule, in
`ruleOrder`, whose substring occurs in the path; `none` when no rule matches. -/
def firstMatchingRule (path : GoString) : Option CounterName :=
  ruleOrder.find? (fun k => Contains path (ruleSubstr k))

/-- The specification's collection identifier of a path `<collection>/<rkey>`:
the part before the first `/`. -/
def collectionOf (path : GoString) : GoString :=
  path.takeWhile (fun b => b != 47)

/-- The specification's record key of a path `<collection>/<rkey>`: the part
after the first `/` (empty when the path has no `/`). -/
def recordKeyOf (path : GoString) : GoString :=
  (path.dropWhile (fun b => b != 47)).drop 1

/-- The counter state in which the named counter is one higher and the other
four are as before. -/
def Counters.incr (c : Counters) : CounterName → Counters
  | .blocks => { c with blocks := c.blocks + 1 }
  | .follows => { c with follows := c.follows + 1 }
  | .likes => { c with likes := c.likes + 1 }
  | .posts => { c with posts := c.posts + 1 }
  | .reposts => { c with reposts := c.reposts + 1 }

/-- The specification's decision for one operation: only a `create` is
classified, by `firstMatchingRule` on its path. -/
def classify (op : SyncSubscribeRepos_RepoOp) : Option CounterName :=
  if op.Action = bytes "create" then firstMatchingRule op.Path else none

/-- The counter state after carrying out a decision. -/
def applyDecision (c : Counters) : Option CounterName → Counters
  | some k => c.incr k
  | none => c

/-- The counter state with every counter at zero, as at process start. -/
def Counters.zero : Counters := ⟨0, 0, 0, 0, 0⟩

/-- A `create` operation at the given path. -/
def createAt (path : String) : SyncSubscribeRepos_RepoOp :=
  ⟨bytes "create", bytes path⟩

/-! ## The 64-bit counter register -/

/-- The effect of `prometheus.Counter.Inc()` on the 64-bit unsigned register that
holds the counter: one more, wrapping from `2 ^ 64 - 1` to `0`. -/
def Inc64 (v : Nat) : Nat := (v + 1) % 2 ^ 64

/-- The loop body of main.go lines 86-100, as `loopBody`, over 64-bit counter
registers. -/
def loopBody64 (c : Counters) (op : SyncSubscribeRepos_RepoOp) : Counters :=
  if op.Action = bytes "create" then
    if Contains op.Path (bytes "app.bsky.graph.block") then
      { c with blocks := Inc64 c.blocks }
    else if Contains op.Path (bytes "app.bsky.feed.like") then
      { c with likes := Inc64 c.likes }
    else if Contains op.Path (bytes "app.bsky.graph.follow") then
      { c with follows := Inc64 c.follows }
    else if Contains op.Path (bytes "app.bsky.feed.post") then
      { c with posts := Inc64 c.posts }
    else if Contains op.Path (bytes "app.bsky.feed.repost") then
      { c with reposts := Inc64 c.reposts }
    else c
  else c

/-- The `RepoCommit` callback over 64-bit counter registers. -/
def RepoCommit64 (c : Counters) (evt : SyncSubscribeRepos_Commit) :
    Counters × Option String :=
  (evt.Ops.foldl loopBody64 c, none)

/-- The 64-bit counter registers after the callback has handled the events of a
list one after another. -/
def handleEvents64 (c : Counters) (evts : List SyncSubscribeRepos_Commit) : Counters :=
  evts.foldl (fun acc evt => (RepoCommit64 acc evt).1) c

/-- The registers that hold the given counts: each count modulo `2 ^ 64`. -/
def Counters.wrap (c : Counters) : Counters :=
  ⟨c.blocks % 2 ^ 64, c.follows % 2 ^ 64, c.likes % 2 ^ 64, c.posts % 2 ^ 64,
    c.reposts % 2 ^ 64⟩

/-- The number of operations, over all events of a list, that the specification
classifies to the named counter. -/
def classifiedTo (k : CounterName) (evts : List SyncSubscribeRepos_Commit) : Nat :=
  (evts.flatMap (fun evt => evt.Ops)).countP (fun op => decide (classify op = some k))

/-! ## Nil operation pointers -/

/-- The event as Go holds it: `Ops` is a slice of pointers
(`[]*SyncSubscribeRepos_RepoOp`), `none` being a nil pointer. -/
structure SyncSubscribeRepos_CommitPtr where
  Repo : GoString
  Seq : Int
  Ops : List (Option SyncSubscribeRepos_RepoOp)
deriving DecidableEq

/-- How a call of the callback ends: it returns an `error` (`none` is Go `nil`),
or it panics. -/
inductive Outcome where
  | returned (err : Option String)
  | panicked
deriving DecidableEq

/-- The loop `for _, op := range evt.Ops` over a slice of pointers, followed by
`return nil` (main.go lines 85-102). Reading `op.Action` at line 87 through a
nil pointer is a run-time panic: the call ends there, with the counters as the
operations before it left them. -/
def rangeOps (c : Counters) : List (Option SyncSubscribeRepos_RepoOp) → Counters × Outcome
  | [] => (c, .returned none)
  | none :: _ => (c, .panicked)
  | some op :: rest => rangeOps (loopBody64 c op) rest

/-- The `RepoCommit` callback (main.go lines 83-103) on an event whose operation
pointers may be nil. -/
def RepoCommitPtr (c : Counters) (evt : SyncSubscribeRepos_CommitPtr) : Counters × Outcome :=
  rangeOps c evt.Ops

/-! ## Facts about `Contains` -/

/-- The executable `Contains` decides the contiguous-sublist relation. -/
theorem Contains_iff_isInfix (s substr : GoString) :
    Contains s substr = true ↔ substr <:+: s := by
  induction s with
  | nil => simp [Contains]
  | cons b rest ih =>
    rw [Contains, Bool.or_eq_true, ih, List.infix_cons_iff, List.isPrefixOf_iff_prefix]

/-- A string without the byte `sep` is a leading part of `a ++ sep :: b` exactly
when it is a leading part of `a`. -/
theorem isPrefixOf_append_sep (sep : UInt8) (substr : GoString) (hsep : sep ∉ substr)
    (a b : GoString) :
    substr.isPrefixOf (a ++ sep :: b) = substr.isPrefixOf a := by
  induction substr generalizing a with
  | nil => simp
  | cons y ys ih =>
    have hy : y ≠ sep := fun h => hsep (h ▸ List.mem_cons_self _ _)
    have hys : sep ∉ ys := fun h => hsep (List.mem_cons_of_mem _ h)
    cases a with
    | nil => simp [List.isPrefixOf, hy]
    | cons x xs => simp [List.isPrefixOf, ih hys xs]

/-- An occurrence of a string without the byte `sep` in `a ++ sep :: b` lies
wholly in `a` or wholly in `b`. -/
theorem Contains_append_sep (sep : UInt8) (substr : GoString) (hsep : sep ∉ substr)
    (a b : GoString) :
    Contains (a ++ sep :: b) substr = (Contains a substr || Contains b substr) := by
  induction a with
  | nil =>
    have h := isPrefixOf_append_sep sep substr hsep [] b
    simp only [List.nil_append] at h
    cases b <;> simp [Contains, h]
  | cons x xs ih =>
    have h := isPrefixOf_append_sep sep substr hsep (x :: xs) b
    simp only [List.cons_append] at h ⊢
    rw [Contains, ih, h, Contains.eq_2, Bool.or_assoc]

/-- No rule substring holds the byte `/`. -/
theorem slash_not_mem_ruleSubstr (k : CounterName) : (47 : UInt8) ∉ ruleSubstr k := by
  cases k <;> decide

/-- A path is its collection identifier, followed, when it has a `/`, by the `/`
and its record key. -/
theorem path_split (p : GoString) :
    p = collectionOf p ∨ p = collectionOf p ++ 47 :: recordKeyOf p := by
  induction p with
  | nil => left; rfl
  | cons b rest ih =>
    by_cases hb : b = 47
    · right
      subst hb
      simp [collectionOf, recordKeyOf, List.takeWhile, List.dropWhile]
    · have hb' : (b != 47) = true := by simpa using hb
      rcases ih with h | h
      · left
        simp only [collectionOf, List.takeWhile, hb'] at h ⊢
        exact congrArg (List.cons b) h
      · right
        simp only [collectionOf, recordKeyOf, List.takeWhile, List.dropWhile, hb',
          List.cons_append] at h ⊢
        exact congrArg (List.cons b) h

/-- A rule substring occurs in a path exactly when it occurs in the path's
collection identifier or in its record key. -/
theorem Contains_path (p : GoString) (k : CounterName) :
    Contains p (ruleSubstr k) =
      (Contains (collectionOf p) (ruleSubstr k) || Contains (recordKeyOf p) (ruleSubstr k)) := by
  rcases path_split p with h | h
  · have hrk : recordKeyOf p = [] := by
      have hlen := congrArg List.length h
      have hsum : p = p.takeWhile (fun b => b != 47) ++ p.dropWhile (fun b => b != 47) :=
        (List.takeWhile_append_dropWhile _ p).symm
      have hsum' := congrArg List.length hsum
      simp only [collectionOf, List.length_append] at hlen hsum'
      have hz : (p.dropWhile (fun b => b != 47)).length = 0 := by omega
      simp [recordKeyOf, List.length_eq_zero.mp hz]
    have hk : Contains [] (ruleSubstr k) = false := by cases k <;> decide
    rw [hrk, hk, Bool.or_false, ← h]
  · conv_lhs => rw [h]
    exact Contains_append_sep 47 (ruleSubstr k) (slash_not_mem_ruleSubstr k) _ _

/-! ## The loop body against the specification's classifier -/

/-- The loop body carries out the specification's decision. -/
theorem loopBody_eq (c : Counters) (op : SyncSubscribeRepos_RepoOp) :
    loopBody c op = applyDecision c (classify op) := by
  unfold loopBody classify
  by_cases hA : op.Action = bytes "create"
  · simp only [if_pos hA, firstMatchingRule, ruleOrder, List.find?, ruleSubstr]
    cases Contains op.Path (bytes "app.bsky.graph.block") <;>
    cases Contains op.Path (bytes "app.bsky.feed.like") <;>
    cases Contains op.Path (bytes "app.bsky.graph.follow") <;>
    cases Contains op.Path (bytes "app.bsky.feed.post") <;>
    cases Contains op.Path (bytes "app.bsky.feed.repost") <;>
    simp [applyDecision, Counters.incr, Inc]
  · simp only [if_neg hA, applyDecision]

/-- Reading a counter after `incr`. -/
theorem get_incr (c : Counters) (k j : CounterName) :
    (c.incr k).get j = if j = k then c.get j + 1 else c.get j := by
  cases k <;> cases j <;> simp [Counters.incr, Counters.get]

/-- Reading a counter after a decision was carried out. -/
theorem get_applyDecision (c : Counters) (d : Option CounterName) (j : CounterName) :
    (applyDecision c d).get j = c.get j + (if d = some j then 1 else 0) := by
  cases d with
  | none => simp [applyDecision]
  | some k =>
    by_cases h : j = k
    · subst h; simp [applyDecision, get_incr]
    · have h' : k ≠ j := fun e => h e.symm
      simp [applyDecision, get_incr, h, h']

/-- Two counter states with the same five readings are the same state. -/
theorem Counters.ext_get (a b : Counters) (h : ∀ k, a.get k = b.get k) : a = b := by
  have h1 := h .blocks
  have h2 := h .follows
  have h3 := h .likes
  have h4 := h .posts
  have h5 := h .reposts
  cases a; cases b
  simp only [Counters.get] at h1 h2 h3 h4 h5
  simp [h1, h2, h3, h4, h5]

/-- Each counter after the loop over a list of operations: its value before
plus the number of operations the specification classifies to it. -/
theorem get_foldl_loopBody (ops : List SyncSubscribeRepos_RepoOp) (c : Counters)
    (k : CounterName) :
    (ops.foldl loopBody c).get k = c.get k + ops.countP (fun op => classify op = some k) := by
  induction ops generalizing c with
  | nil => simp
  | cons op rest ih =>
    rw [List.foldl_cons, ih, loopBody_eq, get_applyDecision, List.countP_cons]
    simp only [decide_eq_true_eq]
    omega

/-- Handling two operations in either order gives the same counters. -/
theorem loopBody_comm (c : Counters) (a b : SyncSubscribeRepos_RepoOp) :
    loopBody (loopBody c a) b = loopBody (loopBody c b) a := by
  apply Counters.ext_get
  intro k
  simp only [loopBody_eq, get_applyDecision]
  omega

/-- Handling two events in either order gives the same counters. -/
theorem RepoCommit_comm (c : Counters) (a b : SyncSubscribeRepos_Commit) :
    (RepoCommit (RepoCommit c a).1 b).1 = (RepoCommit (RepoCommit c b).1 a).1 := by
  apply Counters.ext_get
  intro k
  simp only [RepoCommit, get_foldl_loopBody]
  omega

/-- A path in which no rule substring occurs has no matching rule. -/
theorem firstMatchingRule_eq_none (p : GoString)
    (h : ∀ k, Contains p (ruleSubstr k) = false) : firstMatchingRule p = none := by
  simp [firstMatchingRule, ruleOrder, List.find?, h]

/-- The first matching rule of a path whose record key holds no rule substring
is the first matching rule of its collection identifier. -/
theorem firstMatchingRule_collectionOf (p : GoString)
    (h : ∀ k, Contains (recordKeyOf p) (ruleSubstr k) = false) :
    firstMatchingRule p = firstMatchingRule (collectionOf p) := by
  have hfun : (fun k => Contains p (ruleSubstr k)) =
      (fun k => Contains (collectionOf p) (ruleSubstr k)) := by
    funext k
    rw [Contains_path, h k, Bool.or_false]
  unfold firstMatchingRule
  rw [hfun]

/-- Reading a 64-bit counter register after the loop body. -/
theorem get_loopBody64 (c : Counters) (op : SyncSubscribeRepos_RepoOp) (j : CounterName) :
    (loopBody64 c op).get j =
      if classify op = some j then (c.get j + 1) % 2 ^ 64 else c.get j := by
  unfold loopBody64 classify
  by_cases hA : op.Action = bytes "create"
  · simp only [if_pos hA, firstMatchingRule, ruleOrder, List.find?, ruleSubstr]
    cases Contains op.Path (bytes "app.bsky.graph.block") <;>
    cases Contains op.Path (bytes "app.bsky.feed.like") <;>
    cases Contains op.Path (bytes "app.bsky.graph.follow") <;>
    cases Contains op.Path (bytes "app.bsky.feed.post") <;>
    cases Contains op.Path (bytes "app.bsky.feed.repost") <;>
    cases j <;>
    simp [Counters.get, Inc64]
  · simp [if_neg hA]

/-- Reading the registers that hold given counts. -/
theorem get_wrap (c : Counters) (j : CounterName) : c.wrap.get j = c.get j % 2 ^ 64 := by
  cases j <;> rfl

/-- The 64-bit registers hold the counts of the unbounded embedding modulo
`2 ^ 64`: the loop body commutes with `wrap`. -/
theorem loopBody64_wrap (c : Counters) (op : SyncSubscribeRepos_RepoOp) :
    loopBody64 c.wrap op = (loopBody c op).wrap := by
  apply Counters.ext_get
  intro j
  rw [get_loopBody64, get_wrap, get_wrap, loopBody_eq, get_applyDecision]
  by_cases h : classify op = some j
  · simp only [h, if_true]
    omega
  · simp [h]

/-- A 64-bit counter register after the loop over a list of operations that
does not take it out of range: its value before plus the number of operations
classified to it. -/
theorem get_foldl_loopBody64 (ops : List SyncSubscribeRepos_RepoOp) (c : Counters)
    (k : CounterName)
    (h : c.get k + ops.countP (fun op => decide (classify op = some k)) < 2 ^ 64) :
    (ops.foldl loopBody64 c).get k =
      c.get k + ops.countP (fun op => decide (classify op = some k)) := by
  induction ops generalizing c with
  | nil => simp
  | cons op rest ih =>
    rw [List.countP_cons] at h ⊢
    simp only [decide_eq_true_eq] at h ⊢
    have hstep : (loopBody64 c op).get k =
        c.get k + (if classify op = some k then 1 else 0) := by
      rw [get_loopBody64]
      by_cases hc : classify op = some k
      · simp only [hc, if_true] at h ⊢
        omega
      · simp [hc]
    rw [List.foldl_cons, ih (loopBody64 c op) (by rw [hstep]; omega), hstep]
    omega

/-- A 64-bit counter register after a sequence of events that does not take it
out of range: its value before plus the number of operations classified to
it. -/
theorem get_handleEvents64 (evts : List SyncSubscribeRepos_Commit) (c : Counters)
    (k : CounterName) (h : c.get k + classifiedTo k evts < 2 ^ 64) :
    (handleEvents64 c evts).get k = c.get k + classifiedTo k evts := by
  induction evts generalizing c with
  | nil => simp [handleEvents64, classifiedTo]
  | cons evt rest ih =>
    have hsplit : classifiedTo k (evt :: rest) =
        evt.Ops.countP (fun op => decide (classify op = some k)) + classifiedTo k rest := by
      simp [classifiedTo, List.countP_append]
    rw [hsplit] at h ⊢
    have hevt : (RepoCommit64 c evt).1.get k =
        c.get k + evt.Ops.countP (fun op => decide (classify op = some k)) :=
      get_foldl_loopBody64 evt.Ops c k (by omega)
    have hrest := ih (RepoCommit64 c evt).1 (by rw [hevt]; omega)
    unfold handleEvents64 at hrest ⊢
    rw [List.foldl_cons, hrest, hevt]
    omega

/-! ## Events with nil operation pointers -/

/-- The callback panics exactly on the events that hold a nil operation
pointer; on every other event it returns nil. -/
theorem RepoCommitPtr_outcome (c : Counters) (evt : SyncSubscribeRepos_CommitPtr) :
    (RepoCommitPtr c evt).2 =
      if none ∈ evt.Ops then Outcome.panicked else Outcome.returned none := by
  unfold RepoCommitPtr
  generalize evt.Ops = ops
  induction ops generalizing c with
  | nil => simp [rangeOps]
  | cons o rest ih =>
    cases o with
    | none => simp [rangeOps]
    | some op => simp [rangeOps, ih]

/-- On an event without nil operation pointers the callback is `RepoCommit64`
and returns nil. -/
theorem RepoCommitPtr_present (c : Counters) (evt : SyncSubscribeRepos_Commit) :
    RepoCommitPtr c ⟨evt.Repo, evt.Seq, evt.Ops.map some⟩ =
      ((RepoCommit64 c evt).1, Outcome.returned none) := by
  unfold RepoCommitPtr RepoCommit64
  generalize evt.Ops = ops
  induction ops generalizing c with
  | nil => simp [rangeOps]
  | cons op rest ih => simp [rangeOps, ih]

/-! ## The claims -/

/-- C2: handling an operation whose action is not `create` leaves all five
counters unchanged, whatever its path; so do an `update` and a `delete` at
`app.bsky.feed.post/abc123`. -/
theorem non_create_changes_nothing (c : Counters) (op : SyncSubscribeRepos_RepoOp)
    (hA : op.Action ≠ bytes "create") :
    loopBody c op = c ∧
    loopBody c ⟨bytes "update", bytes "app.bsky.feed.post/abc123"⟩ = c ∧
    loopBody c ⟨bytes "delete", bytes "app.bsky.feed.post/abc123"⟩ = c := by
  refine ⟨?_, ?_, ?_⟩
  · unfold loopBody
    rw [if_neg hA]
  · unfold loopBody
    rw [if_neg (by decide)]
  · unfold loopBody
    rw [if_neg (by decide)]

/-- Witness of C2: an `update` at `app.bsky.feed.like/3kabc`, from a state with
all counters different. -/
theorem non_create_changes_nothing_witness :
    loopBody ⟨1, 2, 3, 4, 5⟩ ⟨bytes "update", bytes "app.bsky.feed.like/3kabc"⟩ =
      ⟨1, 2, 3, 4, 5⟩ :=
  (non_create_changes_nothing ⟨1, 2, 3, 4, 5⟩
    ⟨bytes "update", bytes "app.bsky.feed.like/3kabc"⟩ (by decide)).1

/-- C3: handling a `create` whose path holds none of the five rule substrings
leaves all five counters unchanged, and the callback returns no error for an
event with such an operation. -/
theorem unmatched_create_ignored (c : Counters) (op : SyncSubscribeRepos_RepoOp)
    (hA : op.Action = bytes "create")
    (hnone : ∀ k, Contains op.Path (ruleSubstr k) = false) :
    loopBody c op = c ∧
    (∀ repo seq, RepoCommit c ⟨repo, seq, [op]⟩ = (c, none)) ∧
    (∀ evt, op ∈ evt.Ops → (RepoCommit c evt).2 = none) := by
  have hc : classify op = none := by
    unfold classify
    rw [if_pos hA, firstMatchingRule_eq_none op.Path hnone]
  have hb : loopBody c op = c := by rw [loopBody_eq, hc]; rfl
  refine ⟨hb, ?_, ?_⟩
  · intro repo seq
    simp [RepoCommit, hb]
  · intro evt _
    rfl

/-- Witness of C3: a `create` at `app.bsky.unknown.thing/1`. -/
theorem unmatched_create_ignored_witness :
    loopBody ⟨1, 2, 3, 4, 5⟩ (createAt "app.bsky.unknown.thing/1") = ⟨1, 2, 3, 4, 5⟩ ∧
    RepoCommit ⟨1, 2, 3, 4, 5⟩ ⟨bytes "did:plc:alice", 7, [createAt "app.bsky.unknown.thing/1"]⟩ =
      (⟨1, 2, 3, 4, 5⟩, none) :=
  have h := unmatched_create_ignored ⟨1, 2, 3, 4, 5⟩ (createAt "app.bsky.unknown.thing/1")
    (by decide) (fun k => by cases k <;> decide)
  ⟨h.1, h.2.1 (bytes "did:plc:alice") 7⟩

/-- C5, as amended: two `create` operations whose paths have the same collection
identifier, and whose record keys hold none of the five rule substrings, change
the counters in the same way. -/
theorem same_collection_same_decision (c : Counters) (a b : SyncSubscribeRepos_RepoOp)
    (ha : a.Action = bytes "create") (hb : b.Action = bytes "create")
    (hcoll : collectionOf a.Path = collectionOf b.Path)
    (hrka : ∀ k, Contains (recordKeyOf a.Path) (ruleSubstr k) = false)
    (hrkb : ∀ k, Contains (recordKeyOf b.Path) (ruleSubstr k) = false) :
    loopBody c a = loopBody c b := by
  have hcl : classify a = classify b := by
    unfold classify
    rw [if_pos ha, if_pos hb, firstMatchingRule_collectionOf a.Path hrka,
      firstMatchingRule_collectionOf b.Path hrkb, hcoll]
  rw [loopBody_eq, loopBody_eq, hcl]

/-- Witness of the amended C5: `create` at `app.bsky.feed.like/3kabc` and at
`app.bsky.feed.like/3kxyz`. -/
theorem same_collection_same_decision_witness :
    loopBody Counters.zero (createAt "app.bsky.feed.like/3kabc") =
      loopBody Counters.zero (createAt "app.bsky.feed.like/3kxyz") :=
  same_collection_same_decision Counters.zero (createAt "app.bsky.feed.like/3kabc")
    (createAt "app.bsky.feed.like/3kxyz") (by decide) (by decide) (by decide)
    (fun k => by cases k <;> decide) (fun k => by cases k <;> decide)

/-- Counterexample to C5 as stated: the `create` operations at
`app.bsky.feed.repost/app.bsky.feed.post` and at `app.bsky.feed.repost/abc123`
have the same collection identifier, `app.bsky.feed.repost`, yet the first adds
1 to posts and the second adds 1 to reposts. -/
theorem same_collection_different_counter :
    collectionOf (createAt "app.bsky.feed.repost/app.bsky.feed.post").Path =
        bytes "app.bsky.feed.repost" ∧
    collectionOf (createAt "app.bsky.feed.repost/abc123").Path =
        bytes "app.bsky.feed.repost" ∧
    recordKeyOf (createAt "app.bsky.feed.repost/app.bsky.feed.post").Path =
        bytes "app.bsky.feed.post" ∧
    recordKeyOf (createAt "app.bsky.feed.repost/abc123").Path = bytes "abc123" ∧
    loopBody Counters.zero (createAt "app.bsky.feed.repost/app.bsky.feed.post") =
        ⟨0, 0, 0, 1, 0⟩ ∧
    loopBody Counters.zero (createAt "app.bsky.feed.repost/abc123") = ⟨0, 0, 0, 0, 1⟩ := by
  decide

/-- C6, as amended: within the representable range counters never decrease.
When the value of a counter plus the number of operations of the event sequence
classified to it stays below `2 ^ 64`, the counter does not end below its
starting value; and a single operation leaves a counter as it was, or adds 1 to
it, or, only at `2 ^ 64 - 1`, wraps it to 0. -/
theorem counters_never_decrease_in_range (c : Counters)
    (evts : List SyncSubscribeRepos_Commit) (k : CounterName)
    (hrange : c.get k + classifiedTo k evts < 2 ^ 64) :
    c.get k ≤ (handleEvents64 c evts).get k ∧
    ∀ op, (loopBody64 c op).get k = c.get k ∨ (loopBody64 c op).get k = c.get k + 1 ∨
      (c.get k = 2 ^ 64 - 1 ∧ (loopBody64 c op).get k = 0) := by
  constructor
  · rw [get_handleEvents64 evts c k hrange]
    omega
  · intro op
    rw [get_loopBody64]
    by_cases h : classify op = some k
    · simp only [h, if_true]
      omega
    · simp [h]

/-- Witness of the amended C6: likes at `2 ^ 64 - 2` and one event with one
`create` at `app.bsky.feed.like/3kabc`. -/
theorem counters_never_decrease_in_range_witness :
    2 ^ 64 - 2 ≤
      (handleEvents64 ⟨0, 0, 2 ^ 64 - 2, 0, 0⟩
        [⟨bytes "did:plc:alice", 1, [createAt "app.bsky.feed.like/3kabc"]⟩]).get .likes :=
  (counters_never_decrease_in_range ⟨0, 0, 2 ^ 64 - 2, 0, 0⟩
    [⟨bytes "did:plc:alice", 1, [createAt "app.bsky.feed.like/3kabc"]⟩] .likes
    (by decide)).1

/-- Counterexample to C6 as stated: from the state with likes at `2 ^ 64 - 1`,
handling one event with one `create` at `app.bsky.feed.like/3kabc` leaves likes
at 0: the counter ends below its starting value, and the single operation
changed it neither by 0 nor by +1. -/
theorem counter_wraps_at_max :
    (handleEvents64 ⟨0, 0, 2 ^ 64 - 1, 0, 0⟩
      [⟨bytes "did:plc:alice", 1, [createAt "app.bsky.feed.like/3kabc"]⟩]).get .likes = 0 ∧
    ¬ ((⟨0, 0, 2 ^ 64 - 1, 0, 0⟩ : Counters).get .likes ≤
      (handleEvents64 ⟨0, 0, 2 ^ 64 - 1, 0, 0⟩
        [⟨bytes "did:plc:alice", 1, [createAt "app.bsky.feed.like/3kabc"]⟩]).get .likes) ∧
    ¬ ((loopBody64 ⟨0, 0, 2 ^ 64 - 1, 0, 0⟩ (createAt "app.bsky.feed.like/3kabc")).get .likes =
        (⟨0, 0, 2 ^ 64 - 1, 0, 0⟩ : Counters).get .likes ∨
      (loopBody64 ⟨0, 0, 2 ^ 64 - 1, 0, 0⟩ (createAt "app.bsky.feed.like/3kabc")).get .likes =
        (⟨0, 0, 2 ^ 64 - 1, 0, 0⟩ : Counters).get .likes + 1) := by
  decide

/-- C7, at its failing input: on the event whose operations are a `create` at
`app.bsky.feed.post/abc123`, a nil pointer and a `create` at
`app.bsky.feed.like/xyz`, the callback does not return nil: it counts the post,
panics at the nil pointer and never counts the like. -/
theorem RepoCommit_panics_on_nil_operation :
    RepoCommitPtr Counters.zero
        ⟨bytes "did:plc:alice", 1,
          [some (createAt "app.bsky.feed.post/abc123"), none,
           some (createAt "app.bsky.feed.like/xyz")]⟩ =
      (⟨0, 0, 0, 1, 0⟩, Outcome.panicked) ∧
    (RepoCommitPtr Counters.zero
        ⟨bytes "did:plc:alice", 1,
          [some (createAt "app.bsky.feed.post/abc123"), none,
           some (createAt "app.bsky.feed.like/xyz")]⟩).2 ≠ Outcome.returned none := by
  decide

/-- C9: handling a permutation of a sequence of events, from the same counter
state, ends in the same counter state; so does handling an event whose
operations were reordered. -/
theorem order_independent (c : Counters) (evts₁ evts₂ : List SyncSubscribeRepos_Commit)
    (evt : SyncSubscribeRepos_Commit) (ops : List SyncSubscribeRepos_RepoOp)
    (hevts : evts₁.Perm evts₂) (hops : evt.Ops.Perm ops) :
    handleEvents c evts₁ = handleEvents c evts₂ ∧
    RepoCommit c evt = RepoCommit c { evt with Ops := ops } := by
  constructor
  · unfold handleEvents
    exact hevts.foldl_eq' (fun x _ y _ z => RepoCommit_comm z x y) c
  · unfold RepoCommit
    rw [hops.foldl_eq' (fun x _ y _ z => loopBody_comm z x y) c]

/-- Witness of C9: two events swapped, and the two operations of an event
swapped. -/
theorem order_independent_witness :
    handleEvents Counters.zero
        [⟨bytes "did:plc:alice", 1, [createAt "app.bsky.feed.post/3kabc"]⟩,
         ⟨bytes "did:plc:bob", 2,
           [createAt "app.bsky.feed.like/3kdef", createAt "app.bsky.graph.follow/3kghi"]⟩] =
      handleEvents Counters.zero
        [⟨bytes "did:plc:bob", 2,
           [createAt "app.bsky.feed.like/3kdef", createAt "app.bsky.graph.follow/3kghi"]⟩,
         ⟨bytes "did:plc:alice", 1, [createAt "app.bsky.feed.post/3kabc"]⟩] ∧
    RepoCommit Counters.zero ⟨bytes "did:plc:bob", 2,
        [createAt "app.bsky.feed.like/3kdef", createAt "app.bsky.graph.follow/3kghi"]⟩ =
      RepoCommit Counters.zero ⟨bytes "did:plc:bob", 2,
        [createAt "app.bsky.graph.follow/3kghi", createAt "app.bsky.feed.like/3kdef"]⟩ :=
  order_independent Counters.zero _ _
    ⟨bytes "did:plc:bob", 2,
      [createAt "app.bsky.feed.like/3kdef", createAt "app.bsky.graph.follow/3kghi"]⟩
    [createAt "app.bsky.graph.follow/3kghi", createAt "app.bsky.feed.like/3kdef"]
    (List.Perm.swap _ _ []) (List.Perm.swap _ _ [])

end BskyFirehoseExporter
